import Mathlib

/-!
Shallow embedding of the matching-and-synthesis engine in `ai_processor.py`
(class `AIProcessor`): knowledge-base loading, the four-signal similarity
score (including the `difflib.SequenceMatcher` ratio it relies on),
retrieval, answer synthesis and the `process_question` orchestration.
Floats are modelled as rationals; Python `str` values as Lean `String`
(similarity internals work on `List Char`, mirroring the character level
at which the Python code operates).
-/

namespace KMS

/-! ### Text normalization: lowercasing, punctuation stripping, splitting -/

/-- Python `s.lower()` character by character (ASCII case mapping). -/
def lowerChars (s : List Char) : List Char := s.map Char.toLower

/-- Python regex `\w`: alphanumeric or underscore. -/
def isWordChar (c : Char) : Bool := c.isAlphanum || c == '_'

/-- Python `str.strip()` with no argument: drop leading and trailing
whitespace. -/
def trimChars (s : List Char) : List Char :=
  ((s.dropWhile Char.isWhitespace).reverse.dropWhile Char.isWhitespace).reverse

/-- The regex substitution of `_calculate_similarity` deleting the class
`[^\w\s]`: lowercase, then drop every
character that is neither a word character nor whitespace. -/
def cleanChars (s : List Char) : List Char :=
  (lowerChars s).filter (fun c => isWordChar c || c.isWhitespace)

/-- Accumulator loop for `str.split()`: `acc` holds the reversed current
token. -/
def tokenizeAux : List Char → List Char → List (List Char)
  | [], acc => if acc = [] then [] else [acc.reverse]
  | c :: cs, acc =>
    if c.isWhitespace then
      if acc = [] then tokenizeAux cs [] else acc.reverse :: tokenizeAux cs []
    else tokenizeAux cs (c :: acc)

/-- Python `str.split()` with no argument: split on runs of whitespace,
producing no empty tokens. -/
def tokenize (s : List Char) : List (List Char) := tokenizeAux s []

/-! ### `difflib.SequenceMatcher(None, a, b).ratio()`

The source scores strings with `SequenceMatcher` (character level) and token
lists (word-order signal), so the embedding is generic in the element type.
`isjunk` is `None` in both call sites, hence `bjunk = ∅` and the only junk
effect is the autojunk "popular element" purge of `b2j` (sequences of
length ≥ 200). -/

variable {α : Type} [DecidableEq α]

/-- The table entry `b2j[x]`: ascending list of positions of `x` in `b`, emptied for
"popular" elements by the autojunk heuristic (`len(b) >= 200` and
`count > len(b) // 100 + 1`). -/
def bIndices (b : List α) (x : α) : List Nat :=
  let idxs := (b.enum.filter (fun p => p.2 == x)).map Prod.fst
  if 200 ≤ b.length ∧ b.length / 100 + 1 < idxs.length then [] else idxs

/-- Python `j2len.get(j, 0)` on the association-list model of the dict. -/
def lookupJ (m : List (Nat × Nat)) (j : Nat) : Nat :=
  match m.find? (fun p => p.1 == j) with
  | some p => p.2
  | none => 0

/-- Inner `for j in b2j[a[i]]` loop of `find_longest_match`: builds the new
`j2len` row and updates the best block `(besti, bestj, bestsize)` whenever a
strictly longer match ending at `(i, j)` is found. -/
def flmRow (i : Nat) (js : List Nat) (j2len : List (Nat × Nat))
    (best : Nat × Nat × Nat) : List (Nat × Nat) × (Nat × Nat × Nat) :=
  js.foldl (fun acc j =>
    let k := (if j = 0 then 0 else lookupJ j2len (j - 1)) + 1
    let row := (j, k) :: acc.1
    if acc.2.2.2 < k then (row, (i + 1 - k, j + 1 - k, k)) else (row, acc.2))
    ([], best)

/-- Dynamic-programming core of `find_longest_match` over
`a[alo:ahi]`, `b[blo:bhi]`. -/
def flmCore (a b : List α) (alo ahi blo bhi : Nat) : Nat × Nat × Nat :=
  (((List.range' alo (ahi - alo)).foldl (fun acc i =>
    match a.get? i with
    | none => ([], acc.2)
    | some x =>
      let js := (bIndices b x).filter (fun j => decide (blo ≤ j) && decide (j < bhi))
      flmRow i js acc.1 acc.2) ([], (alo, blo, 0)))).2

/-- Do positions `i` of `a` and `j` of `b` hold equal elements? -/
def sameAt (a b : List α) (i j : Nat) : Bool :=
  match a.get? i, b.get? j with
  | some x, some y => x == y
  | _, _ => false

/-- The "extend by non-junk elements" backward loop of `find_longest_match`
(`bjunk` is empty since `isjunk` is `None`). Fuel bounds the iteration
count; `besti` itself suffices. -/
def extendBack (a b : List α) (alo blo : Nat) :
    Nat → Nat × Nat × Nat → Nat × Nat × Nat
  | 0, st => st
  | fuel + 1, (besti, bestj, bestsize) =>
    if alo < besti ∧ blo < bestj ∧ sameAt a b (besti - 1) (bestj - 1) then
      extendBack a b alo blo fuel (besti - 1, bestj - 1, bestsize + 1)
    else (besti, bestj, bestsize)

/-- The forward extension loop of `find_longest_match`. -/
def extendFwd (a b : List α) (ahi bhi : Nat) :
    Nat → Nat × Nat × Nat → Nat × Nat × Nat
  | 0, st => st
  | fuel + 1, (besti, bestj, bestsize) =>
    if besti + bestsize < ahi ∧ bestj + bestsize < bhi ∧
        sameAt a b (besti + bestsize) (bestj + bestsize) then
      extendFwd a b ahi bhi fuel (besti, bestj, bestsize + 1)
    else (besti, bestj, bestsize)

/-- Python `find_longest_match(alo, ahi, blo, bhi)`. -/
def findLongestMatch (a b : List α) (alo ahi blo bhi : Nat) : Nat × Nat × Nat :=
  let st := flmCore a b alo ahi blo bhi
  let st := extendBack a b alo blo st.1 st
  extendFwd a b ahi bhi ahi st

/-- Total size of the matching blocks found by the recursive splitting of
`get_matching_blocks` (the queue order of the Python original does not
affect the sum). Fuel bounds the recursion depth. -/
def matchingSizeAux (a b : List α) : Nat → Nat → Nat → Nat → Nat → Nat
  | 0, _, _, _, _ => 0
  | fuel + 1, alo, ahi, blo, bhi =>
    let m := findLongestMatch a b alo ahi blo bhi
    if m.2.2 = 0 then 0
    else matchingSizeAux a b fuel alo m.1 blo m.2.1 + m.2.2 +
         matchingSizeAux a b fuel (m.1 + m.2.2) ahi (m.2.1 + m.2.2) bhi

/-- Python `sum(block.size for block in get_matching_blocks())`. -/
def matchingSize (a b : List α) : Nat :=
  matchingSizeAux a b (a.length + b.length + 1) 0 a.length 0 b.length

/-- Python `SequenceMatcher(None, a, b).ratio()`: `2*M/T`, and `1.0` when both
sequences are empty (`_calculate_ratio`). -/
def seqRatio (a b : List α) : ℚ :=
  let total := a.length + b.length
  if total = 0 then 1 else (2 * matchingSize a b : ℚ) / total

/-! ### `_calculate_similarity` -/

/-- Python `set(s.split())` for a cleaned character list. -/
def tokenSet (s : List Char) : Finset (List Char) := (tokenize s).toFinset

/-- The Jaccard signal: `overlap / total if total > 0 else 0`. -/
def jaccardSim (aClean bClean : List Char) : ℚ :=
  let overlap := ((tokenSet aClean) ∩ (tokenSet bClean)).card
  let total := ((tokenSet aClean) ∪ (tokenSet bClean)).card
  if 0 < total then (overlap : ℚ) / total else 0

/-- The word-similarity signal:
`len(common)*2/total_words if total_words > 0 else 0`. -/
def wordSimScore (aClean bClean : List Char) : ℚ :=
  let common := ((tokenSet aClean) ∩ (tokenSet bClean)).card
  let totalWords := (tokenSet aClean).card + (tokenSet bClean).card
  if 0 < totalWords then (common : ℚ) * 2 / totalWords else 0

/-- Python `_calculate_similarity(a, b)`: two equality short-circuits, then the
weighted combination `0.3*jaccard + 0.3*sequence + 0.2*word_order +
0.2*word_sim`. The internal `try/except` never fires (all divisions are
guarded), so the embedding is the bare computation. -/
def calculateSimilarity (a b : String) : ℚ :=
  if lowerChars a.data = lowerChars b.data then 1
  else
    let aClean := cleanChars a.data
    let bClean := cleanChars b.data
    if aClean = bClean then 1
    else
      let jaccard := jaccardSim aClean bClean
      let sequence := seqRatio aClean bClean
      let wordOrder := seqRatio (tokenize aClean) (tokenize bClean)
      let wordSim := wordSimScore aClean bClean
      jaccard * (3/10) + sequence * (3/10) + wordOrder * (1/5) + wordSim * (1/5)

/-! ### Data model -/

/-- One knowledge-base row as kept in the parallel lists
`self.ids` / `self.questions` / `self.answers`. -/
structure Entry where
  id : Int
  question : String
  answer : String
deriving DecidableEq, Repr

/-- One retrieval result dict
`{id, question, answer, similarity}`. -/
structure Candidate where
  id : Int
  question : String
  answer : String
  similarity : ℚ
deriving DecidableEq, Repr

/-- The dict returned by `process_question`. -/
structure ProcessResult where
  question : String
  answer : String
  confidence : ℚ
  is_ai_generated : Bool
  similar_questions : List Candidate
deriving DecidableEq, Repr

/-! ### `_load_knowledge_base` (the cleaning loop over fetched rows) -/

/-- Field cleaning of `_load_knowledge_base`:
trim whitespace, then delete every pipe character. -/
def cleanField (s : String) : String :=
  String.mk ((trimChars s.data).filter (fun c => c ≠ '|'))

/-- The row-cleaning loop of `_load_knowledge_base`: a row is kept exactly
when both cleaned fields are non-empty, and the kept entry carries the
cleaned fields. -/
def loadKnowledgeBase (rows : List (Int × String × String)) : List Entry :=
  rows.filterMap (fun r =>
    let question := cleanField r.2.1
    let answer := cleanField r.2.2
    if question ≠ "" ∧ answer ≠ "" then some ⟨r.1, question, answer⟩ else none)

/-! ### `find_similar_questions` -/

/-- The `similarities` list: `(i, self._calculate_similarity(query, q))`
for each corpus position `i`. -/
def similarityList (questions : List Entry) (query : String) : List (Nat × ℚ) :=
  questions.enum.map (fun p => (p.1, calculateSimilarity query p.2.question))

/-- The sort `similarities.sort(key=lambda x: x[1], reverse=True)`. The Python
`list.sort` is a stable sort, and every stable sort of the same list by
the same key computes the same output list, so the sort is modelled by a
stable insertion sort on the non-strict "similarity at least" relation. -/
def sortedSimilarities (questions : List Entry) (query : String) : List (Nat × ℚ) :=
  (similarityList questions query).insertionSort (fun x y => y.2 ≤ x.2)

/-- Python `find_similar_questions(query, k)`: empty corpus short-circuit, then
the top `k` of the stably sorted similarity list, materialized as
candidate dicts from the parallel lists. -/
def findSimilarQuestions (questions : List Entry) (query : String) (k : Nat) :
    List Candidate :=
  if questions = [] then []
  else
    ((sortedSimilarities questions query).take k).filterMap (fun p =>
      (questions.get? p.1).map (fun e =>
        { id := e.id, question := e.question, answer := e.answer, similarity := p.2 }))

/-! ### `_synthesize_answer` -/

/-- Python `answer_groups[key] = answer_groups.get(key, 0) + w` on the
insertion-ordered association-list model of the Python dict. -/
def addWeight (groups : List (String × ℚ)) (key : String) (w : ℚ) :
    List (String × ℚ) :=
  match groups with
  | [] => [(key, w)]
  | (k, v) :: rest =>
    if k = key then (k, v + w) :: rest else (k, v) :: addWeight rest key w

/-- One iteration of the grouping loop of `_synthesize_answer`: answers
whose trimmed text lowercases to yes/no accumulate under the two special
keys; every other answer accumulates under its trimmed text. -/
def answerGroupStep (groups : List (String × ℚ)) (qa : Candidate) :
    List (String × ℚ) :=
  let answer := String.mk (trimChars qa.answer.data)
  if lowerChars answer.data = "yes".data then addWeight groups ("yes") qa.similarity
  else if lowerChars answer.data = "no".data then addWeight groups ("no") qa.similarity
  else addWeight groups answer qa.similarity

/-- The grouping loop of `_synthesize_answer`. -/
def answerGroups (similar_qa : List Candidate) : List (String × ℚ) :=
  similar_qa.foldl answerGroupStep []

/-- The group key actually used by one `answerGroupStep` iteration:
trimmed text, pooled into `"yes"`/`"no"` only when the trimmed text
lowercases exactly to yes/no; all other answers are keyed
case-sensitively. -/
def pythonGroupKey (answer : String) : String :=
  let t := String.mk (trimChars answer.data)
  if lowerChars t.data = "yes".data then ("yes")
  else if lowerChars t.data = "no".data then ("no")
  else t

/-- Python `answer_groups.get(key, 0)`. -/
def groupLookup (groups : List (String × ℚ)) (key : String) : ℚ :=
  match groups.find? (fun p => p.1 == key) with
  | some p => p.2
  | none => 0

/-- Python `key in answer_groups`. -/
def hasKey (groups : List (String × ℚ)) (key : String) : Bool :=
  (groups.find? (fun p => p.1 == key)).isSome

/-- The trailing branch of `_synthesize_answer`: groups sorted stably by
descending accumulated weight; the heaviest key, or `None` when no group
was formed. -/
def fallbackSorted (groups : List (String × ℚ)) : Option String :=
  match groups.insertionSort (fun x y => y.2 ≤ x.2) with
  | [] => none
  | p :: _ => some p.1

/-- Python `_synthesize_answer(question, similar_qa)`. The yes/no branch only
returns when `total_weight > 0`; otherwise control falls through to the
weight-sorted branch. The internal `try/except` never fires (the division
is guarded). -/
def synthesizeAnswer (question : String) (similar_qa : List Candidate) :
    Option String :=
  let groups := answerGroups similar_qa
  if (hasKey groups ("yes") || hasKey groups ("no")) &&
      decide (0 < (groups.map Prod.snd).sum) then
    let total := (groups.map Prod.snd).sum
    let yesRatio := groupLookup groups ("yes") / total
    let noRatio := groupLookup groups ("no") / total
    if 3/5 < yesRatio then some ("Yes")
    else if 3/5 < noRatio then some ("No")
    else some ("Partially - depends on specific requirements and context")
  else fallbackSorted groups

/-! ### `process_question` -/

/-- The "no similar questions" result of `process_question`. -/
def noMatchResult (q : String) : ProcessResult :=
  ⟨q, "No similar questions found in the knowledge base.", 0, false, []⟩

/-- The result produced by the outer `except` handler of
`process_question`. -/
def errorResult (q : String) : ProcessResult :=
  ⟨q, "Error processing question. Please try again.", 0, false, []⟩

/-- Python `lst[0]`: raises `IndexError` on an empty list. -/
def pyHead {β : Type} : List β → Except String β
  | [] => Except.error ("IndexError")
  | x :: _ => Except.ok x

/-- Python `s[-1]`: raises `IndexError` on an empty string. -/
def pyLastChar (s : String) : Except String Char :=
  match s.data.getLast? with
  | none => Except.error ("IndexError")
  | some c => Except.ok c

/-- Python `s[:-1]`. -/
def dropLastStr (s : String) : String := String.mk s.data.dropLast

/-- The confidence-qualifier post-processing applied to a truthy
synthesized answer: pick the note from the confidence band, splice it in
before a trailing `.`/`!`/`?`, else append it followed by a period. -/
def applyNote (confidence : ℚ) (s : String) : Except String String :=
  let note :=
    if confidence < 1/2 then (" (Based on multiple similar questions)")
    else if confidence < 4/5 then (" (Based on closely related questions)")
    else ("")
  if note = "" then Except.ok s
  else
    match pyLastChar s with
    | Except.error e => Except.error e
    | Except.ok last =>
      if last = '.' ∨ last = '!' ∨ last = '?' then
        Except.ok (dropLastStr s ++ note ++ String.mk [last])
      else Except.ok (s ++ note ++ ".")

/-- Body of `process_question` inside its `try`, with the genuinely
partial operations (`similar_qa[0]`, `final_answer[-1]`) threaded through
`Except` exactly where Python could raise. -/
def processQuestionE (questions : List Entry) (question : String) :
    Except String ProcessResult :=
  let similar_qa := findSimilarQuestions questions question 5
  if similar_qa = [] then Except.ok (noMatchResult question)
  else
    let similar_qa := similar_qa.insertionSort (fun x y => y.similarity ≤ x.similarity)
    match pyHead similar_qa with
    | Except.error e => Except.error e
    | Except.ok best_match =>
      let confidence := best_match.similarity
      if 19/20 ≤ confidence then
        Except.ok ⟨question, best_match.answer, confidence, false, similar_qa⟩
      else
        let relevant := similar_qa.filter (fun qa => decide (1/5 < qa.similarity))
        let fallback : ProcessResult :=
          ⟨question, best_match.answer, confidence, decide (confidence < 19/20), similar_qa⟩
        if relevant = [] then Except.ok fallback
        else
          match synthesizeAnswer question relevant with
          | none => Except.ok fallback
          | some s =>
            if s = "" then Except.ok fallback
            else
              match applyNote confidence s with
              | Except.error e => Except.error e
              | Except.ok final =>
                Except.ok ⟨question, final, confidence, true, similar_qa⟩

/-- Python `process_question(question)`: the `try/except` boundary converting any
escaped exception into the fixed error result. -/
def processQuestion (questions : List Entry) (question : String) : ProcessResult :=
  match processQuestionE questions question with
  | Except.ok r => r
  | Except.error _ => errorResult question

/-! ### Concrete inputs used by witnesses and counterexamples -/

/-- A one-entry corpus whose question shares nothing with an empty query. -/
def tinyCorpus : List Entry := [⟨0, "q", "a"⟩]

/-- The capital-of-France scenario query from the spec (the apostrophe is
character 39). -/
def parisQuery : String := "what" ++ String.mk [Char.ofNat 39] ++ "s the capital of france"

/-- The capital-of-France scenario corpus from the spec. -/
def parisCorpus : List Entry := [⟨1, "What is the capital of France?", "Paris"⟩]

/-- Three candidates answering Yes / Yes / No, each at similarity `0.4`. -/
def yynCandidates : List Candidate :=
  [⟨1, "", "Yes", 2/5⟩, ⟨2, "", "Yes", 2/5⟩, ⟨3, "", "No", 2/5⟩]

/-- Candidates whose answers differ only in letter case, plus a heavier
distinct answer. -/
def caseCandidates : List Candidate :=
  [⟨1, "", "Paris", 3/10⟩, ⟨2, "", "PARIS", 3/10⟩, ⟨3, "", "London", 2/5⟩]

/-! ### Claim C1 -/

/-- Claim C1 is false as stated: `process_question` has no empty-input
short-circuit. With the non-empty corpus `tinyCorpus` and the empty
question, the pipeline runs and returns the best retrieved answer
`"a"` (at similarity `0`), not the "no match" result. -/
theorem c1_empty_question_counterexample :
    processQuestion tinyCorpus ("") ≠ noMatchResult ("") ∧
    processQuestion tinyCorpus ("") = ⟨"", "a", 0, true, [⟨0, "q", "a", 0⟩]⟩ := by
  with_unfolding_all decide

/-! ### Claim C2 -/

/-- Claim C2: when the `"yes"` or `"no"` group is present and the total
accumulated weight over ALL groups is positive, `_synthesize_answer`
returns `"Yes"` when `yes_weight / total_weight > 0.6`, `"No"` when
`no_weight / total_weight > 0.6`, and otherwise the literal
`"Partially - depends on specific requirements and context"`. -/
theorem c2_yes_no_ratio_vote (q : String) (cands : List Candidate)
    (hmem : hasKey (answerGroups cands) "yes" = true ∨
      hasKey (answerGroups cands) "no" = true)
    (hpos : 0 < ((answerGroups cands).map Prod.snd).sum) :
    synthesizeAnswer q cands =
      some (if 3/5 < groupLookup (answerGroups cands) "yes" /
                ((answerGroups cands).map Prod.snd).sum then ("Yes")
        else if 3/5 < groupLookup (answerGroups cands) "no" /
                ((answerGroups cands).map Prod.snd).sum then ("No")
        else ("Partially - depends on specific requirements and context")) := by
  have hcond : ((hasKey (answerGroups cands) "yes" || hasKey (answerGroups cands) "no") &&
      decide (0 < ((answerGroups cands).map Prod.snd).sum)) = true := by
    rcases hmem with h | h <;> simp [h, hpos]
  simp only [synthesizeAnswer, hcond, if_true]
  split_ifs <;> rfl

/-- Witness for C2 at the scenario given in the spec: answers Yes / Yes / No,
each at similarity `0.4`, give `yes_ratio = 2/3 > 0.6` and the answer
`"Yes"`. -/
theorem c2_yes_no_ratio_vote_witness :
    (hasKey (answerGroups yynCandidates) "yes" = true ∨
      hasKey (answerGroups yynCandidates) "no" = true) ∧
    0 < ((answerGroups yynCandidates).map Prod.snd).sum ∧
    synthesizeAnswer ("q") yynCandidates =
      some (if 3/5 < groupLookup (answerGroups yynCandidates) "yes" /
                ((answerGroups yynCandidates).map Prod.snd).sum then ("Yes")
        else if 3/5 < groupLookup (answerGroups yynCandidates) "no" /
                ((answerGroups yynCandidates).map Prod.snd).sum then ("No")
        else ("Partially - depends on specific requirements and context")) :=
  ⟨Or.inl (by with_unfolding_all decide), by with_unfolding_all decide,
    c2_yes_no_ratio_vote ("q") yynCandidates (Or.inl (by with_unfolding_all decide))
      (by with_unfolding_all decide)⟩

/-- The scenario value itself: the vote returns exactly `"Yes"`. -/
theorem c2_scenario_value : synthesizeAnswer ("q") yynCandidates = some ("Yes") := by
  with_unfolding_all decide

/-! ### Claim C6 -/

set_option maxRecDepth 200000 in
/-- Claim C6 is false as stated: on the capital-of-France scenario the
best similarity is `463/616 ≈ 0.75`, which falls below the `0.95` verbatim
band, so the pipeline takes the synthesis path: the returned answer is
`"Paris (Based on closely related questions)."` (not exactly `"Paris"`)
and `is_ai_generated` is `true` (not `false`). -/
theorem c6_paris_counterexample :
    (processQuestion parisCorpus parisQuery).answer ≠ "Paris" ∧
    (processQuestion parisCorpus parisQuery).is_ai_generated = true := by
  with_unfolding_all decide

set_option maxRecDepth 200000 in
/-- Claim C6 amended: on the scenario the best similarity `463/616` does
exceed `0.6`, but the result is synthesized: `is_ai_generated = true` and
the answer is `"Paris"` with the closely-related-questions qualifier
appended. -/
theorem c6_paris_amended :
    processQuestion parisCorpus parisQuery =
      ⟨parisQuery, "Paris (Based on closely related questions).", 463/616, true,
        [⟨1, "What is the capital of France?", "Paris", 463/616⟩]⟩ ∧
    (3/5 : ℚ) < 463/616 := by
  with_unfolding_all decide

/-! ### Claim C7 -/

/-- Claim C7 is false as stated: non-yes/no answers key their group by
the trimmed answer text CASE-SENSITIVELY. `"Paris"` and `"PARIS"` (equal
up to letter case) land in two distinct groups, observable through
synthesis: the two `0.3` weights do not pool, so the single `0.4`
`"London"` group wins. -/
theorem c7_case_grouping_counterexample :
    answerGroups caseCandidates =
      [("Paris", 3/10), ("PARIS", 3/10), ("London", 2/5)] ∧
    synthesizeAnswer ("q") caseCandidates = some ("London") := by
  with_unfolding_all decide

lemma groupLookup_nil (key : String) : groupLookup [] key = 0 := rfl

lemma groupLookup_cons (pk : String) (pv : ℚ) (rest : List (String × ℚ))
    (key : String) :
    groupLookup ((pk, pv) :: rest) key =
      if pk = key then pv else groupLookup rest key := by
  by_cases h : pk = key
  · simp [groupLookup, List.find?_cons, h]
  · simp [groupLookup, List.find?_cons, h]

lemma groupLookup_addWeight (g : List (String × ℚ)) (k key : String) (w : ℚ) :
    groupLookup (addWeight g k w) key =
      groupLookup g key + (if k = key then w else 0) := by
  induction g with
  | nil =>
    by_cases h : k = key
    · simp [addWeight, groupLookup_cons, groupLookup_nil, h]
    · simp [addWeight, groupLookup_cons, groupLookup_nil, h]
  | cons p rest ih =>
    obtain ⟨pk, pv⟩ := p
    by_cases hpk : pk = k
    · subst hpk
      have hw : addWeight ((pk, pv) :: rest) pk w = (pk, pv + w) :: rest := by
        simp [addWeight]
      rw [hw]
      by_cases h : pk = key
      · rw [groupLookup_cons, groupLookup_cons, if_pos h, if_pos h, if_pos (h ▸ rfl)]
      · rw [groupLookup_cons, groupLookup_cons, if_neg h, if_neg h,
          if_neg (fun hh : pk = key => h hh)]
        ring
    · simp only [addWeight, if_neg hpk]
      rw [groupLookup_cons, groupLookup_cons]
      by_cases h : pk = key
      · have hk : ¬(k = key) := fun hh => hpk (h.trans hh.symm)
        rw [if_pos h, if_pos h, if_neg hk]
        ring
      · rw [if_neg h, if_neg h]
        exact ih

lemma answerGroupStep_eq (groups : List (String × ℚ)) (qa : Candidate) :
    answerGroupStep groups qa =
      addWeight groups (pythonGroupKey qa.answer) qa.similarity := by
  simp only [answerGroupStep, pythonGroupKey]
  split_ifs <;> rfl

lemma answerGroups_lookup_aux (cands : List Candidate)
    (groups : List (String × ℚ)) (key : String) :
    groupLookup (cands.foldl answerGroupStep groups) key =
      groupLookup groups key +
        ((cands.filter (fun c => pythonGroupKey c.answer == key)).map
          (fun c => c.similarity)).sum := by
  induction cands generalizing groups with
  | nil => simp
  | cons qa rest ih =>
    rw [List.foldl_cons, answerGroupStep_eq, ih, groupLookup_addWeight]
    by_cases h : pythonGroupKey qa.answer = key
    · simp only [List.filter_cons, h, beq_self_eq_true, if_pos, List.map_cons,
        List.sum_cons]
      ring
    · have hb : (pythonGroupKey qa.answer == key) = false := by
        simp [h]
      simp only [List.filter_cons, hb, Bool.false_eq_true, if_neg, if_false]
      rw [if_neg h]
      ring

/-- Claim C7 amended: the accumulated weight of each group is the sum of the
similarities of exactly those candidates whose answer maps to that key
under `pythonGroupKey` — trimmed, pooled into `"yes"`/`"no"` when the
trimmed text lowercases to yes/no, and otherwise keyed by the trimmed
text case-sensitively (so only the yes/no pools merge answers that differ
in letter case). -/
theorem c7_case_grouping_amended (cands : List Candidate) (key : String) :
    groupLookup (answerGroups cands) key =
      ((cands.filter (fun c => pythonGroupKey c.answer == key)).map
        (fun c => c.similarity)).sum := by
  have h := answerGroups_lookup_aux cands [] key
  simpa [answerGroups, groupLookup, List.find?] using h

/-! ### Claim C8 -/

/-- Claim C8 is false as stated: the sequence-ratio signal (the difflib
`SequenceMatcher.ratio`) depends on argument order, so `score` is not
symmetric: `score("pqz", "qpxq") = 6/35` but `score("qpxq", "pqz") =
3/35`. -/
theorem c8_symmetry_counterexample :
    calculateSimilarity ("pqz") ("qpxq") = 6/35 ∧
    calculateSimilarity ("qpxq") ("pqz") = 3/35 ∧
    calculateSimilarity ("pqz") ("qpxq") ≠ calculateSimilarity ("qpxq") ("pqz") := by
  with_unfolding_all decide

/-- Claim C8 amended: the Jaccard and word-overlap signals are symmetric
(as are the two equality short-circuits), but the sequence and word-order
signals are not, so the combined score is not symmetric in general. -/
theorem c8_symmetric_components_amended (a b : List Char) :
    jaccardSim a b = jaccardSim b a ∧ wordSimScore a b = wordSimScore b a := by
  constructor
  · simp only [jaccardSim, Finset.inter_comm, Finset.union_comm]
  · simp only [wordSimScore, Finset.inter_comm, Nat.add_comm]

/-! ### Claim C9 -/

/-- Claim C9 is false as stated: load-time cleaning does more than drop
blank pairs. Every pipe character is deleted from kept fields (`"a|b"` is
stored as `"ab"`, a character-level change beyond trimming), and a field
consisting of a single pipe — not blank after trimming — is nevertheless
dropped because the pipe-stripped text is empty. -/
theorem c9_load_counterexample :
    loadKnowledgeBase [(1, "a|b", "c"), (2, "|", "x")] = [⟨1, "ab", "c"⟩] ∧
    ("ab" : String) ≠ "a|b" ∧
    String.mk (trimChars ("a|b".data)) = "a|b" ∧
    String.mk (trimChars ("|".data)) ≠ "" := by
  with_unfolding_all decide

/-- Claim C9 amended: at load time each question/answer field is trimmed
and every pipe character is deleted; an entry is kept exactly when both
resulting strings are non-empty, and the kept entry carries the trimmed,
pipe-stripped text. -/
theorem c9_load_amended (rows : List (Int × String × String)) (e : Entry) :
    e ∈ loadKnowledgeBase rows ↔
      ∃ r ∈ rows, cleanField r.2.1 ≠ "" ∧ cleanField r.2.2 ≠ "" ∧
        e = ⟨r.1, cleanField r.2.1, cleanField r.2.2⟩ := by
  unfold loadKnowledgeBase
  rw [List.mem_filterMap]
  constructor
  · rintro ⟨r, hr, hsome⟩
    by_cases h : cleanField r.2.1 ≠ "" ∧ cleanField r.2.2 ≠ ""
    · rw [if_pos h] at hsome
      exact ⟨r, hr, h.1, h.2, (Option.some_inj.mp hsome).symm⟩
    · rw [if_neg h] at hsome
      exact absurd hsome (by simp)
  · rintro ⟨r, hr, h1, h2, he⟩
    exact ⟨r, hr, by rw [if_pos ⟨h1, h2⟩, he]⟩

/-! ### Claim C10 -/

/-- Claim C10 is false as stated: with `a = "?"` (no alphanumeric
characters, cleaned form empty) and `b = " "` (cleaned form the single
space, token list empty), the strings are not equal case-insensitively
and the cleaned-equality short-circuit does not fire, yet the score is
`1/5` — neither `1.0` nor `0.0` — because the word-order signal compares
two empty token lists and the difflib ratio of two empty sequences is
`1.0`, weighted `0.2`. -/
theorem c10_degenerate_counterexample :
    lowerChars ("?".data) ≠ lowerChars (" ".data) ∧
    cleanChars ("?".data) = [] ∧
    cleanChars (" ".data) ≠ [] ∧
    tokenize (cleanChars (" ".data)) = [] ∧
    calculateSimilarity ("?") (" ") = 1/5 := by
  with_unfolding_all decide

lemma findLongestMatch_nil_left {α : Type} [DecidableEq α] (b : List α)
    (blo bhi : Nat) :
    findLongestMatch ([] : List α) b 0 0 blo bhi = (0, blo, 0) := rfl

lemma matchingSize_nil_left {α : Type} [DecidableEq α] (b : List α) :
    matchingSize ([] : List α) b = 0 := by
  show matchingSizeAux ([] : List α) b (0 + b.length + 1) 0 0 0 b.length = 0
  rw [Nat.zero_add]
  simp [matchingSizeAux, findLongestMatch_nil_left]

lemma seqRatio_nil_left {α : Type} [DecidableEq α] (b : List α) (hb : b ≠ []) :
    seqRatio ([] : List α) b = 0 := by
  have hlen : ([] : List α).length + b.length ≠ 0 := by
    simp [List.length_eq_zero, hb]
  simp only [seqRatio, if_neg hlen, matchingSize_nil_left]
  simp

lemma jaccardSim_nil_left (b : List Char) : jaccardSim [] b = 0 := by
  simp [jaccardSim, tokenSet, tokenize, tokenizeAux]

lemma wordSimScore_nil_left (b : List Char) : wordSimScore [] b = 0 := by
  simp [wordSimScore, tokenSet, tokenize, tokenizeAux]

/-- Claim C10 amended: for `a`, `b` not equal case-insensitively with
the cleaned form of `a` empty, the score is `1.0` when the cleaned form
of `b` is
also empty (cleaned-equality short-circuit), `0.2` when that cleaned
form is non-empty but whitespace-only (the word-order ratio of two empty
token lists is `1.0` at weight `0.2`; the other three signals are `0`),
and `0.0` when `b` has at least one token. -/
theorem c10_degenerate_amended (a b : String)
    (hne : lowerChars a.data ≠ lowerChars b.data)
    (ha : cleanChars a.data = []) :
    calculateSimilarity a b =
      (if cleanChars b.data = [] then 1
       else if tokenize (cleanChars b.data) = [] then 1/5 else 0) := by
  simp only [calculateSimilarity, if_neg hne, ha]
  by_cases hb : cleanChars b.data = []
  · rw [if_pos hb.symm, if_pos hb]
  · rw [if_neg (fun h : ([] : List Char) = cleanChars b.data => hb h.symm), if_neg hb]
    rw [jaccardSim_nil_left, wordSimScore_nil_left, seqRatio_nil_left _ hb]
    have htokn : tokenize ([] : List Char) = [] := rfl
    rw [htokn]
    by_cases htok : tokenize (cleanChars b.data) = []
    · rw [if_pos htok, htok]
      norm_num [seqRatio]
    · rw [if_neg htok, seqRatio_nil_left _ htok]
      norm_num

/-- Witness for the amended C10 at `a = "?"`, `b = " "`: the hypotheses
hold and the score evaluates to the middle (`1/5`) branch. -/
theorem c10_degenerate_amended_witness :
    lowerChars ("?".data) ≠ lowerChars (" ".data) ∧
    cleanChars ("?".data) = [] ∧
    calculateSimilarity ("?") (" ") =
      (if cleanChars (" ".data) = [] then 1
       else if tokenize (cleanChars (" ".data)) = [] then 1/5 else 0) :=
  ⟨by with_unfolding_all decide, by with_unfolding_all decide,
    c10_degenerate_amended ("?") (" ") (by with_unfolding_all decide)
      (by with_unfolding_all decide)⟩

/-! ### Retrieval lemmas shared by C3 and C4 -/

lemma similarityList_fst (qs : List Entry) (q : String) :
    (similarityList qs q).map Prod.fst = List.range qs.length := by
  unfold similarityList
  rw [List.map_map]
  have h : (Prod.fst ∘ fun p : Nat × Entry =>
      (p.1, calculateSimilarity q p.2.question)) = Prod.fst := rfl
  rw [h, List.enum_map_fst]

lemma similarityList_pairwise_fst (qs : List Entry) (q : String) :
    (similarityList qs q).Pairwise (fun x y => x.1 < y.1) := by
  have h := List.pairwise_lt_range qs.length
  rw [← similarityList_fst qs q] at h
  exact List.pairwise_map.mp h

lemma sortedSimilarities_perm (qs : List Entry) (q : String) :
    (sortedSimilarities qs q).Perm (similarityList qs q) :=
  List.perm_insertionSort _ _

lemma sortedSimilarities_pairwise_le (qs : List Entry) (q : String) :
    (sortedSimilarities qs q).Pairwise (fun x y : Nat × ℚ => y.2 ≤ x.2) := by
  haveI : IsTotal (Nat × ℚ) (fun x y => y.2 ≤ x.2) := ⟨fun a b => le_total b.2 a.2⟩
  haveI : IsTrans (Nat × ℚ) (fun x y => y.2 ≤ x.2) :=
    ⟨fun _ _ _ h1 h2 => le_trans h2 h1⟩
  exact List.sorted_insertionSort _ _

lemma sortedSimilarities_fst_nodup (qs : List Entry) (q : String) :
    ((sortedSimilarities qs q).map Prod.fst).Nodup := by
  have hperm := (sortedSimilarities_perm qs q).map Prod.fst
  rw [hperm.nodup_iff, similarityList_fst]
  exact List.nodup_range qs.length

lemma pair_sublist_of_pairwise_lt {L : List (Nat × ℚ)}
    (hL : L.Pairwise (fun a b => a.1 < b.1)) {x y : Nat × ℚ}
    (hx : x ∈ L) (hy : y ∈ L) (hxy : x.1 < y.1) : [x, y].Sublist L := by
  induction L with
  | nil => cases hx
  | cons a t ih =>
    rw [List.pairwise_cons] at hL
    rcases List.mem_cons.mp hx with hxa | hxt
    · rcases List.mem_cons.mp hy with hya | hyt
      · exact absurd hxy (by rw [hxa, hya]; exact lt_irrefl _)
      · rw [hxa]
        exact (List.singleton_sublist.mpr hyt).cons₂ a
    · rcases List.mem_cons.mp hy with hya | hyt
      · have hax : a.1 < x.1 := hL.1 x hxt
        exact absurd hxy (by rw [hya]; omega)
      · exact (ih hL.2 hxt hyt).cons a

lemma pair_sublist_getElem {β : Type} {x y : β} {l : List β}
    (h : [x, y].Sublist l) :
    ∃ i j, ∃ (hi : i < l.length) (hj : j < l.length),
      i < j ∧ l[i] = x ∧ l[j] = y := by
  obtain ⟨is, his, hpw⟩ := List.sublist_eq_map_getElem h
  cases is with
  | nil => simp at his
  | cons i it =>
    cases it with
    | nil => simp at his
    | cons j jt =>
      cases jt with
      | cons k kt => simp at his
      | nil =>
        simp only [List.map_cons, List.map_nil, List.cons.injEq, and_true] at his
        rw [List.pairwise_cons] at hpw
        exact ⟨i, j, i.isLt, j.isLt, hpw.1 j (List.mem_singleton.mpr rfl),
          his.1.symm, his.2.symm⟩

/-- Stable descending order of the sorted similarity list: strictly
larger similarity first, ties in original corpus order. -/
lemma sortedSimilarities_pairwise_stable (qs : List Entry) (q : String) :
    (sortedSimilarities qs q).Pairwise
      (fun x y => y.2 < x.2 ∨ (y.2 = x.2 ∧ x.1 < y.1)) := by
  rw [List.pairwise_iff_getElem]
  intro i j hi hj hij
  set S := sortedSimilarities qs q with hS
  have hle : S[j].2 ≤ S[i].2 :=
    List.pairwise_iff_getElem.mp (sortedSimilarities_pairwise_le qs q) i j hi hj hij
  by_cases hlt : S[j].2 < S[i].2
  · exact Or.inl hlt
  · have heq : S[j].2 = S[i].2 := le_antisymm hle (not_lt.mp hlt)
    refine Or.inr ⟨heq, ?_⟩
    have hfst := sortedSimilarities_fst_nodup qs q
    have hinj : ∀ (p r : Nat) (hp : p < S.length) (hr : r < S.length),
        S[p].1 = S[r].1 → p = r := by
      intro p r hp hr hpr
      have hp' : p < (S.map Prod.fst).length := by simpa using hp
      have hr' : r < (S.map Prod.fst).length := by simpa using hr
      have : (S.map Prod.fst)[p] = (S.map Prod.fst)[r] := by
        rw [List.getElem_map, List.getElem_map]
        exact hpr
      exact (List.Nodup.getElem_inj_iff hfst).mp this
    rcases Nat.lt_trichotomy S[i].1 S[j].1 with h | h | h
    · exact h
    · exact absurd (hinj i j hi hj h) (Nat.ne_of_lt hij)
    · exfalso
      have hmi : S[i] ∈ similarityList qs q :=
        (sortedSimilarities_perm qs q).mem_iff.mp (S.getElem_mem hi)
      have hmj : S[j] ∈ similarityList qs q :=
        (sortedSimilarities_perm qs q).mem_iff.mp (S.getElem_mem hj)
      have hsub : [S[j], S[i]].Sublist (similarityList qs q) :=
        pair_sublist_of_pairwise_lt (similarityList_pairwise_fst qs q) hmj hmi h
      have hr : (fun x y : Nat × ℚ => y.2 ≤ x.2) S[j] S[i] := heq.ge
      have hstable : [S[j], S[i]].Sublist S :=
        List.pair_sublist_insertionSort hr hsub
      obtain ⟨p, r, hp, hr', hpr, hpj, hri⟩ := pair_sublist_getElem hstable
      have hpj' : p = j := hinj p j hp hj (by rw [hpj])
      have hri' : r = i := hinj r i hr' hi (by rw [hri])
      omega

lemma findSimilar_pairwise_desc (qs : List Entry) (q : String) (k : Nat) :
    (findSimilarQuestions qs q k).Pairwise
      (fun x y => y.similarity ≤ x.similarity) := by
  unfold findSimilarQuestions
  split
  · exact List.Pairwise.nil
  · rw [List.pairwise_filterMap]
    have htake : ((sortedSimilarities qs q).take k).Pairwise
        (fun x y : Nat × ℚ => y.2 ≤ x.2) :=
      List.Pairwise.sublist (List.take_sublist k _)
        (sortedSimilarities_pairwise_le qs q)
    refine htake.imp_of_mem ?_
    intro a b _ _ hab c hc c' hc'
    simp only [Option.mem_def, Option.map_eq_some'] at hc hc'
    obtain ⟨e, _, rfl⟩ := hc
    obtain ⟨e', _, rfl⟩ := hc'
    exact hab

/-! ### Claim C1, amended statement -/

/-- With a non-empty corpus, retrieval (at the default `k = 5`) always
returns at least one candidate: there is no minimum-similarity threshold,
every similarity pair carries an in-range corpus index, and `take 5` of
the non-empty sorted list is non-empty. -/
lemma findSimilar_ne_nil (qs : List Entry) (q : String) (hqs : qs ≠ []) :
    findSimilarQuestions qs q 5 ≠ [] := by
  unfold findSimilarQuestions
  rw [if_neg hqs]
  intro hnil
  rw [List.filterMap_eq_nil_iff] at hnil
  have hlen : (sortedSimilarities qs q).length = qs.length := by
    unfold sortedSimilarities similarityList
    rw [List.length_insertionSort, List.length_map, List.enum_length]
  have hpos : 0 < qs.length := List.length_pos.mpr hqs
  have htk : (sortedSimilarities qs q).take 5 ≠ [] := by
    rw [Ne, List.take_eq_nil_iff]
    push_neg
    exact ⟨by omega, List.ne_nil_of_length_pos (by omega)⟩
  obtain ⟨p, hp⟩ := List.exists_mem_of_ne_nil _ htk
  have hmem : p ∈ sortedSimilarities qs q := List.take_subset 5 _ hp
  have hfst : p.1 < qs.length := by
    have hm1 : p ∈ similarityList qs q :=
      (sortedSimilarities_perm qs q).mem_iff.mp hmem
    have hm2 : p.1 ∈ (similarityList qs q).map Prod.fst :=
      List.mem_map_of_mem Prod.fst hm1
    rw [similarityList_fst] at hm2
    exact List.mem_range.mp hm2
  have hnone := hnil p hp
  rw [Option.map_eq_none', List.get?_eq_none] at hnone
  omega

/-- Every `ok` result of the pipeline body taken when retrieval is
non-empty carries the non-empty sorted candidate list, so it can never be
the "no match" result (whose candidate list is empty). -/
lemma processQuestionE_ok_shape (qs : List Entry) (q : String)
    (hne : findSimilarQuestions qs q 5 ≠ []) (r : ProcessResult)
    (hr : processQuestionE qs q = Except.ok r) :
    r.similar_questions ≠ [] := by
  simp only [processQuestionE] at hr
  rw [if_neg hne] at hr
  cases hsort : (findSimilarQuestions qs q 5).insertionSort
      (fun x y => y.similarity ≤ x.similarity) with
  | nil =>
    exfalso
    have hlen := List.length_insertionSort
      (fun x y : Candidate => y.similarity ≤ x.similarity)
      (findSimilarQuestions qs q 5)
    rw [hsort] at hlen
    exact hne (List.length_eq_zero.mp hlen.symm)
  | cons best tail =>
    rw [hsort] at hr
    simp only [pyHead] at hr
    split at hr
    · injection hr with h; subst h; exact List.cons_ne_nil best tail
    · split at hr
      · injection hr with h; subst h; exact List.cons_ne_nil best tail
      · split at hr
        · injection hr with h; subst h; exact List.cons_ne_nil best tail
        · split at hr
          · injection hr with h; subst h; exact List.cons_ne_nil best tail
          · split at hr
            · exact absurd hr (by simp)
            · injection hr with h; subst h; exact List.cons_ne_nil best tail

/-- Claim C1 amended: `process_question` has no empty-input
short-circuit: an empty input question yields the "no match" result
exactly when the corpus is empty. With an empty corpus retrieval returns
no candidates and the "no match" result is produced; with a non-empty
corpus the empty question flows through the normal pipeline and the
result is never the "no match" result. -/
theorem c1_no_match_iff_empty_corpus (qs : List Entry) :
    processQuestion qs ("") = noMatchResult ("") ↔ qs = [] := by
  constructor
  · intro h
    by_contra hqs
    have hne := findSimilar_ne_nil qs ("") hqs
    unfold processQuestion at h
    cases hE : processQuestionE qs ("") with
    | error e =>
      rw [hE] at h
      have herr : errorResult ("") = noMatchResult ("") := h
      exact absurd herr (by with_unfolding_all decide)
    | ok r =>
      rw [hE] at h
      have hr2 : r = noMatchResult ("") := h
      have hshape := processQuestionE_ok_shape qs ("") hne r hE
      rw [hr2] at hshape
      exact hshape rfl
  · intro h
    subst h
    rfl

/-- Witness for the amended C1 at the empty corpus: the backward
direction of the equivalence produces the "no match" result. -/
theorem c1_no_match_iff_empty_corpus_witness :
    processQuestion [] ("") = noMatchResult ("") :=
  (c1_no_match_iff_empty_corpus []).mpr rfl

/-! ### Claim C4 -/

/-- Claim C4: retrieval returns at most `k` candidates, sorted descending
by similarity; the underlying stable sort breaks similarity ties by
original corpus position; and an empty corpus yields the empty result. -/
theorem c4_retrieval_spec (qs : List Entry) (q : String) (k : Nat) :
    (findSimilarQuestions qs q k).length ≤ k ∧
    (qs = [] → findSimilarQuestions qs q k = []) ∧
    (findSimilarQuestions qs q k).Pairwise
      (fun x y => y.similarity ≤ x.similarity) ∧
    (sortedSimilarities qs q).Pairwise
      (fun x y => y.2 < x.2 ∨ (y.2 = x.2 ∧ x.1 < y.1)) := by
  refine ⟨?_, ?_, findSimilar_pairwise_desc qs q k,
    sortedSimilarities_pairwise_stable qs q⟩
  · unfold findSimilarQuestions
    split
    · simp
    · exact le_trans (List.length_filterMap_le _ _) (List.length_take_le k _)
  · intro h
    simp [findSimilarQuestions, h]

/-- Witness for C4 at a concrete input, discharging the empty-corpus
hypothesis of the second conjunct. -/
theorem c4_retrieval_spec_witness : findSimilarQuestions [] ("x") 5 = [] :=
  (c4_retrieval_spec [] ("x") 5).2.1 rfl

/-! ### Claim C3 -/

/-- Claim C3: whenever the best retrieved candidate scores at least
`0.95`, `process_question` returns the answer of that candidate verbatim with
`is_ai_generated = false` and confidence equal to that similarity. -/
theorem c3_high_confidence_reuse (qs : List Entry) (q : String)
    (best : Candidate) (rest : List Candidate)
    (hfind : findSimilarQuestions qs q 5 = best :: rest)
    (hconf : 19/20 ≤ best.similarity) :
    processQuestion qs q = ⟨q, best.answer, best.similarity, false, best :: rest⟩ := by
  have hsorted : (best :: rest).Pairwise
      (fun x y : Candidate => y.similarity ≤ x.similarity) := by
    rw [← hfind]; exact findSimilar_pairwise_desc qs q 5
  have hins : (best :: rest).insertionSort
      (fun x y => y.similarity ≤ x.similarity) = best :: rest :=
    List.Sorted.insertionSort_eq hsorted
  unfold processQuestion processQuestionE
  rw [hfind, if_neg (List.cons_ne_nil best rest), hins]
  simp only [pyHead, if_pos hconf]

/-- Witness for C3: a corpus whose single entry matches the query exactly
gives similarity `1 ≥ 0.95` and verbatim reuse. -/
theorem c3_high_confidence_reuse_witness :
    findSimilarQuestions [⟨0, "a", "ans"⟩] ("a") 5 = [⟨0, "a", "ans", 1⟩] ∧
    (19/20 : ℚ) ≤ 1 ∧
    processQuestion [⟨0, "a", "ans"⟩] ("a") =
      ⟨"a", "ans", 1, false, [⟨0, "a", "ans", 1⟩]⟩ :=
  ⟨by with_unfolding_all decide, by with_unfolding_all decide,
    c3_high_confidence_reuse [⟨0, "a", "ans"⟩] ("a") ⟨0, "a", "ans", 1⟩ []
      (by with_unfolding_all decide) (by with_unfolding_all decide)⟩

/-! ### Claim C5 -/

lemma applyNote_ok (c : ℚ) (s : String) (h : s ≠ "") :
    ∃ t, applyNote c s = Except.ok t := by
  have hdata : s.data ≠ [] := by
    intro hd
    exact h (String.ext (hd.trans rfl))
  cases hlast : s.data.getLast? with
  | none => exact absurd (List.getLast?_eq_none_iff.mp hlast) hdata
  | some ch =>
    simp only [applyNote, pyLastChar, hlast]
    repeat' split
    all_goals exact ⟨_, rfl⟩

/-- Claim C5: for every question and corpus the pipeline body completes
without an exception escaping (every partial operation is guarded), and
`process_question` returns exactly the result of the body — so the engine
never raises past its boundary, and by the `except` wrapper any escaped
exception would be converted into the fixed error result. -/
theorem c5_never_raises (qs : List Entry) (q : String) :
    ∃ r, processQuestionE qs q = Except.ok r ∧ processQuestion qs q = r := by
  suffices h : ∃ r, processQuestionE qs q = Except.ok r by
    obtain ⟨r, hr⟩ := h
    refine ⟨r, hr, ?_⟩
    unfold processQuestion
    rw [hr]
  simp only [processQuestionE]
  split
  · exact ⟨_, rfl⟩
  · rename_i hne
    cases hsort : (findSimilarQuestions qs q 5).insertionSort
        (fun x y => y.similarity ≤ x.similarity) with
    | nil =>
      exfalso
      have hlen := List.length_insertionSort
        (fun x y : Candidate => y.similarity ≤ x.similarity)
        (findSimilarQuestions qs q 5)
      rw [hsort] at hlen
      exact hne (List.length_eq_zero.mp hlen.symm)
    | cons best tail =>
      simp only [hsort, pyHead]
      split
      · exact ⟨_, rfl⟩
      · split
        · exact ⟨_, rfl⟩
        · split
          · exact ⟨_, rfl⟩
          · rename_i s hsyn
            split
            · exact ⟨_, rfl⟩
            · rename_i hs
              obtain ⟨t, ht⟩ := applyNote_ok best.similarity s hs
              rw [ht]
              exact ⟨_, rfl⟩

end KMS
